import Mathlib

/-!
Shallow embedding of the Fishing recommendation engine.

The embedding follows `src/recsys.py` (class `RecSys`) and
`src/backend/service/recommendations/vector_db.py` (class `AuthorSearchEngine`).
Python dictionaries are modelled as association lists in insertion order,
floats as exact rationals, and the two external collaborators — the
sentence-transformer embedding model and the Gemini LLM — as explicit
parameters (an encoding function `String → List ℚ`, respectively a value of
type `RerankResp` standing for the parsed outcome of the LLM call).
-/

/-- Snapshot author identifiers: `recsys.py` treats ids as opaque dict keys that
are either Python ints or strings (it casts between the two with `int(...)` and
`str(...)` when matching LLM output). -/
inductive PyId where
  | pint (n : Int)
  | pstr (s : String)
deriving DecidableEq

/-- Python `str(...)` applied to an id. -/
def pyStr : PyId → String
  | .pint n => toString n
  | .pstr s => s

/-- Python `str.isdigit` for the ASCII strings that appear as ids: nonempty and
all characters are digits. -/
def pyIsDigit (s : String) : Bool :=
  s.data.length > 0 && s.data.all (fun c => c.isDigit)

/-- Python `int(...)` on a string for which `isdigit` holds (so no sign). -/
def pyIntOfDigits (s : String) : Int :=
  ((s.data.foldl (fun a c => a * 10 + (c.toNat - 48)) 0 : Nat) : Int)

/-- One publication inside an author's `combined` payload. Fields default to
absent/empty exactly like the `.get(..., default)` accesses in the source.
Per the data model (spec section 3) the `year` field is an optional integer;
`authors` is the per-publication co-author id list (`author_ids`). -/
structure Pub where
  title : Option String := none
  abstract : Option String := none
  year : Option Int := none
  authors : List PyId := []
deriving DecidableEq

/-- The `combined` sub-dictionary of one author record. Every access in
`recsys.py` and `vector_db.py` goes through `content.get('combined', {})`, so
the constant outer wrapper is elided. The top-level `authors` field models the
separately-sourced `combined['authors']` list read by
`RecSys._init_coauthors_map`. -/
structure AuthorInfo where
  name : Option String := none
  interests : List String := []
  publications : List Pub := []
  authors : List PyId := []
deriving DecidableEq

/-- The `authors_data` snapshot: a Python dict from author id to the author's
`combined` payload, modelled as an association list in insertion order with
distinct keys. -/
abbrev AuthorsData : Type := List (PyId × AuthorInfo)

/-- Python `dict.get(k)` on an association list (keys are unique, so first
match is the dict entry). -/
def assocGet {α β : Type} [BEq α] (m : List (α × β)) (k : α) : Option β :=
  (m.find? (fun p => p.1 == k)).map (fun p => p.2)

/-- RecSys._init_coauthors_map stores `combined.get('authors', [])` for each
snapshot key, and `recommend` later reads it with
`self.coauthors_map.get(user_id, [])`; for ids outside the snapshot both give
the empty list. -/
def coauthors_map_get (data : AuthorsData) (u : PyId) : List PyId :=
  match assocGet data u with
  | some info => info.authors
  | none => []

/-- Modelled from the spec: the co-authorship derivation that claim C2 states,
`direct[u]` = the union over `u`'s own publications of each publication's
`author_ids`, minus `{u}`. No code in `src/recsys.py` computes this; it is the
reference point the code is compared against. -/
def direct_spec (data : AuthorsData) (u : PyId) : Finset PyId :=
  match assocGet data u with
  | some info =>
      (info.publications.foldl (fun (acc : Finset PyId) (p : Pub) => acc ∪ p.authors.toFinset) ∅).erase u
  | none => ∅

/-- The body of the inner loop of `RecSys._init_second_degree_coauthors`:
skip the user, skip direct contacts, otherwise add to the candidate set. -/
def sd_add (u : PyId) (ds : Finset PyId) (acc : Finset PyId) (c : PyId) : Finset PyId :=
  if c = u then acc else if c ∈ ds then acc else insert c acc

/-- RecSys._init_second_degree_coauthors for one user, combined with the later
`self.second_degree_map.get(user_id, [])` (for an id outside the snapshot the
direct list is empty, so the result is the empty set, matching the dict
default). Only membership in the resulting Python set is ever used, so the
result is a `Finset`. -/
def second_degree_get (data : AuthorsData) (u : PyId) : Finset PyId :=
  let direct := coauthors_map_get data u
  let ds := direct.toFinset
  direct.foldl (fun acc v => (coauthors_map_get data v).foldl (sd_add u ds) acc) ∅

/-- Python `max` over a nonempty list of ints, `none` for the empty list. -/
def listMaxInt : List Int → Option Int
  | [] => none
  | x :: xs =>
    match listMaxInt xs with
    | none => some x
    | some m => some (max x m)

/-- The `years` list built by `RecSys._get_last_publication_year`: each
publication's `year` value is kept when it is truthy (`if y:` — present and
nonzero); `int(y)` on an int is the identity and cannot raise. -/
def pubYears (pubs : List Pub) : List Int :=
  pubs.filterMap (fun p =>
    match p.year with
    | some y => if y = 0 then none else some y
    | none => none)

/-- RecSys._get_last_publication_year: max publication year of a snapshot
author, `none` when there are no publications or no truthy years. -/
def get_last_publication_year (data : AuthorsData) (u : PyId) : Option Int :=
  let pubs := match assocGet data u with
    | some info => info.publications
    | none => []
  listMaxInt (pubYears pubs)

/-- The recency multiplier computed inline in `RecSys.recommend`:
`time_coef = 1.0`, overridden only when `last_year` is truthy (`if last_year:`
is false for both `None` and `0`) by the `diff`-banded values 0.2 / 0.4 / 0.7. -/
def time_coef (last_year : Option Int) (current_year : Int) : ℚ :=
  match last_year with
  | none => 1
  | some y =>
    if y = 0 then 1
    else if current_year - y > 10 then 1/5
    else if current_year - y > 5 then 2/5
    else if current_year - y > 2 then 7/10
    else 1

/-- Python `round(x, 4)` modelled as exact half-to-even rounding at four
decimal places. -/
def pyRound4 (x : ℚ) : ℚ :=
  let r := x * 10000
  let f := ⌊r⌋
  let frac := r - (f : ℚ)
  let n : Int :=
    if frac > 1/2 then f + 1
    else if frac < 1/2 then f
    else if f % 2 = 0 then f else f + 1
  (n : ℚ) / 10000

/-- The `details` sub-dict of a heuristic result entry in `RecSys.recommend`. -/
structure HeurDetails where
  vector_score : ℚ
  connection : String
  last_year : Option Int
deriving DecidableEq

/-- One heuristic result dict appended by `RecSys.recommend` (keys `id`,
`name`, `final_score`, `details`). -/
structure HeurEntry where
  id : PyId
  name : String
  final_score : ℚ
  details : HeurDetails
deriving DecidableEq

/-- One dict returned by `AuthorSearchEngine._run_search` (keys `id`, `score`,
`name`, `interests`); `RecSys.recommend` reads `id` and `score`. -/
structure SearchHit where
  id : PyId
  score : ℚ
  name : String
  interests : List String
deriving DecidableEq

/-- The body of the candidate loop in `RecSys.recommend`: social bonus and
connection label from graph membership, recency multiplier, blended score
(rounded to 4 places like the source), and the safe name lookup. -/
def score_candidate (data : AuthorsData) (user_id : PyId) (current_year : Int)
    (cand : SearchHit) : HeurEntry :=
  let direct_friends := coauthors_map_get data user_id
  let friends_of_friends := second_degree_get data user_id
  let sb : ℚ × String :=
    if cand.id ∈ direct_friends then (1/4, "Co-author")
    else if cand.id ∈ friends_of_friends then (1/10, "2nd degree")
    else (0, "None")
  let last_year := get_last_publication_year data cand.id
  let final_score := (cand.score + sb.1) * time_coef last_year current_year
  let name := match assocGet data cand.id with
    | some info => info.name.getD "Unknown Author"
    | none => "Unknown Author"
  { id := cand.id, name := name,
    final_score := pyRound4 final_score,
    details := { vector_score := pyRound4 cand.score, connection := sb.2,
                 last_year := last_year } }

/-- Stable insertion keyed descending on a rational: the new element goes in
front of the first element whose key is less than or equal to its own, so
earlier elements with an equal key stay in front. -/
def insertDescBy {α : Type} (key : α → ℚ) (x : α) : List α → List α
  | [] => [x]
  | y :: ys => if key y ≤ key x then x :: y :: ys else y :: insertDescBy key x ys

/-- Stable descending sort by a rational key; implements Python's stable
`list.sort(key=..., reverse=True)`. -/
def sortDescBy {α : Type} (key : α → ℚ) (l : List α) : List α :=
  l.foldr (insertDescBy key) []

/-- The heuristic stage of `RecSys.recommend`: drop candidates whose id has the
same string form as the requester (`if str(cid) == str(user_id): continue`),
score the rest in retrieval order, then sort by `final_score` descending.
The retrieved candidate list is a parameter because `search_by_text` runs the
external sentence-transformer model. -/
def heuristic_results (data : AuthorsData) (user_id : PyId)
    (cands : List SearchHit) (current_year : Int) : List HeurEntry :=
  sortDescBy (fun e => e.final_score)
    (cands.filterMap (fun c =>
      if pyStr c.id = pyStr user_id then none
      else some (score_candidate data user_id current_year c)))

/-- One element of the JSON list a successful LLM call decodes to: a dict with
optional `id`, `rank` and `reasoning` keys (read with `.get`). -/
structure RankItem where
  id : Option PyId
  rank : Option Int
  reasoning : Option String
deriving DecidableEq

/-- Outcome of the guarded LLM call in `RecSys._rerank_with_gemini`: `fail` is
any exception inside the `try` block (network error, timeout, non-JSON body,
JSON that is not a list of dicts, ...); `ok` is a decoded list of rank items. -/
inductive RerankResp where
  | fail
  | ok (ranking : List RankItem)
deriving DecidableEq

/-- One dict built by `RecSys._rerank_with_gemini` on the success path (keys
`id`, `name`, `llm_reasoning`, `heuristic_details`). The `id` field stores the
id echoed by the LLM, `rank_item.get('id')`, not the matched candidate's id. -/
structure LlmEntry where
  id : Option PyId
  name : String
  llm_reasoning : Option String
  heuristic_details : HeurDetails
deriving DecidableEq

/-- An element of the list `RecSys.recommend` returns: either a heuristic
result dict (no-LLM path and fallback path) or an LLM-merged dict. -/
inductive REntry where
  | heur (e : HeurEntry)
  | llm (e : LlmEntry)
deriving DecidableEq

/-- The dict keys of one returned entry, read off the two dict literals in the
source (`recommend` lines 218-227, `_rerank_with_gemini` lines 153-158). -/
def entry_fields : REntry → List String
  | .heur _ => ["id", "name", "final_score", "details"]
  | .llm _ => ["id", "name", "llm_reasoning", "heuristic_details"]

/-- Whether a returned entry's `id` value equals the given id. -/
def entry_has_id : REntry → PyId → Bool
  | .heur h, u => h.id == u
  | .llm l, u => l.id == some u

/-- Lookup in `cand_map = {c['id']: c for c in candidates_list}`: in a dict
comprehension a later duplicate key overwrites an earlier one, hence the last
matching entry wins. -/
def cand_map_get (l : List HeurEntry) (k : PyId) : Option HeurEntry :=
  l.reverse.find? (fun c => c.id == k)

/-- Python `str(...)` of an optional id; `str(None)` is the string `"None"`. -/
def pyStrOfOptId : Option PyId → String
  | none => "None"
  | some k => pyStr k

/-- The three-way id resolution in `RecSys._rerank_with_gemini`: exact dict
lookup, then `int(cid)` when `str(cid).isdigit()`, then `str(cid)`. -/
def resolve_rank_item (cands : List HeurEntry) (item : RankItem) : Option HeurEntry :=
  let exact := match item.id with
    | some k => cand_map_get cands k
    | none => none
  let s := pyStrOfOptId item.id
  let afterInt := match exact with
    | some c => some c
    | none => if pyIsDigit s then cand_map_get cands (.pint (pyIntOfDigits s)) else none
  match afterInt with
  | some c => some c
  | none => cand_map_get cands (.pstr s)

/-- RecSys._rerank_with_gemini: empty input short-circuits to `[]` before the
LLM is called; any exception falls back to the untouched heuristic prefix
`candidates_list[:top_n]`; on success the resolved entries are merged in LLM
order and truncated to `top_n` (unresolved ids silently dropped, no backfill). -/
def rerank_with_gemini (cands : List HeurEntry) (resp : RerankResp)
    (top_n : Nat) : List REntry :=
  if cands = [] then []
  else
    match resp with
    | .fail => (cands.take top_n).map .heur
    | .ok ranking =>
      (ranking.filterMap (fun item =>
        (resolve_rank_item cands item).map (fun c =>
          REntry.llm { id := item.id, name := c.name,
                       llm_reasoning := item.reasoning,
                       heuristic_details := c.details }))).take top_n

/-- RecSys.recommend after the vector search: heuristic scoring and sort; with
`use_llm=False` the heuristic top-`top_n`; otherwise the heuristic top-15 goes
through `_rerank_with_gemini`. `cands` is the `search_by_text` result (its
length is bounded by `search_limit` upstream); `resp` is the outcome of the
external LLM call. -/
def recommend (data : AuthorsData) (user_id : PyId) (cands : List SearchHit)
    (current_year : Int) (top_n : Nat) (use_llm : Bool) (resp : RerankResp) :
    List REntry :=
  let hr := heuristic_results data user_id cands current_year
  if use_llm then rerank_with_gemini (hr.take 15) resp top_n
  else (hr.take top_n).map .heur

/-- Inner product of two rational vectors (FAISS `IndexFlatIP` scoring). -/
def dotQ (a b : List ℚ) : ℚ := (List.zipWith (fun x y => x * y) a b).sum

/-- Pointwise sum of a list of `d`-dimensional vectors (the summation inside
`np.mean(embeddings, axis=0)`). -/
def sumVecs (d : Nat) : List (List ℚ) → List ℚ
  | [] => List.replicate d 0
  | v :: vs => List.zipWith (fun x y => x + y) (sumVecs d vs) v

/-- Pointwise arithmetic mean of a list of `d`-dimensional vectors
(`np.mean(..., axis=0)`). -/
def meanVec (d : Nat) (vs : List (List ℚ)) : List ℚ :=
  (sumVecs d vs).map (fun x => x / ((vs.length : ℚ)))

/-- The `texts_to_embed` list of `AuthorSearchEngine._get_single_author_vector`:
the joined interests string when interests are nonempty, then one chunk
`"{title}. {abstract}"` per publication, kept only when its length exceeds 5. -/
def author_texts (info : AuthorInfo) : List String :=
  (if info.interests = [] then [] else [String.intercalate ", " info.interests]) ++
    info.publications.filterMap (fun p =>
      let text := (p.title.getD "") ++ ". " ++ (p.abstract.getD "")
      if text.length > 5 then some text else none)

/-- AuthorSearchEngine._get_single_author_vector: the zero vector when there is
nothing to embed, otherwise the pointwise mean of the chunk embeddings. The
sentence-transformer is the parameter `encode` (the provider normalizes each
chunk embedding; the source applies no renormalization to the mean). -/
def get_single_author_vector (encode : String → List ℚ) (d : Nat)
    (info : AuthorInfo) : List ℚ :=
  let texts := author_texts info
  if texts = [] then List.replicate d 0
  else meanVec d (texts.map encode)

/-- Python exception classes relevant to the search engine. `valueError` and
`attributeError` are the ones the code can actually raise; `notFoundError` and
`notReadyError` are the names the spec's error taxonomy expects and are defined
here only so the claim about them can be stated — nothing in `src/` defines or
raises them. -/
inductive PyErr where
  | valueError
  | attributeError
  | notFoundError
  | notReadyError
deriving DecidableEq

/-- State of an `AuthorSearchEngine`: FAISS index (present only after
`process_and_index`), vector matrix, slot/id maps and the author data cache. -/
structure Engine where
  dimension : Nat
  index : Option (List (List ℚ))
  authors_vectors : List (List ℚ)
  id_map : List (Nat × PyId)
  reverse_id_map : List (PyId × Nat)
  author_data_cache : List (PyId × AuthorInfo)

/-- A freshly constructed engine (`AuthorSearchEngine.__init__`): no index, no
vectors, empty maps. -/
def fresh_engine (d : Nat) : Engine :=
  { dimension := d, index := none, authors_vectors := [], id_map := [],
    reverse_id_map := [], author_data_cache := [] }

/-- AuthorSearchEngine.process_and_index: vectorize every author in snapshot
order, record the slot/id bijection and the cache, and build the flat index. -/
def process_and_index (encode : String → List ℚ) (d : Nat)
    (data : AuthorsData) : Engine :=
  let vectors := data.map (fun p => get_single_author_vector encode d p.2)
  { dimension := d,
    index := some vectors,
    authors_vectors := vectors,
    id_map := (data.map (fun p => p.1)).enum,
    reverse_id_map := (data.map (fun p => p.1)).enum.map (fun p => (p.2, p.1)),
    author_data_cache := data }

/-- AuthorSearchEngine._run_search: before `process_and_index` the FAISS index
attribute is `None`, so `self.index.search` raises `AttributeError`. With an
index, exact search scores every stored vector by inner product, ranks
descending (ties by ascending slot, the stored order), takes `k_search`
neighbors (one extra when an id is excluded), drops the excluded id, and stops
at `top_k` results. -/
def run_search (eng : Engine) (query : List ℚ) (top_k : Nat)
    (exclude : Option PyId) : Except PyErr (List SearchHit) :=
  match eng.index with
  | none => .error .attributeError
  | some vecs =>
    let k_search := if exclude.isSome then top_k + 1 else top_k
    let scored := (List.range vecs.length).map (fun i => (i, dotQ query (vecs.getD i [])))
    let ranked := (sortDescBy (fun p => p.2) scored).take k_search
    let results := ranked.filterMap (fun p =>
      match assocGet eng.id_map p.1 with
      | none => none
      | some rid =>
        if exclude = some rid then none
        else
          let info := (assocGet eng.author_data_cache rid).getD {}
          some { id := rid, score := p.2, name := info.name.getD "Unknown",
                 interests := info.interests })
    .ok (results.take top_k)

/-- AuthorSearchEngine.search_by_text after the external embedding model has
produced the normalized query vector. -/
def search_by_text (eng : Engine) (query_vec : List ℚ) (top_k : Nat) :
    Except PyErr (List SearchHit) :=
  run_search eng query_vec top_k none

/-- AuthorSearchEngine.search_similar_to_author: unknown ids raise
`ValueError` (the guard fires before the index is touched); known ids search
with the author's stored vector, excluding the author. -/
def search_similar_to_author (eng : Engine) (author_id : PyId) (top_k : Nat) :
    Except PyErr (List SearchHit) :=
  match assocGet eng.reverse_id_map author_id with
  | none => .error .valueError
  | some fid => run_search eng (eng.authors_vectors.getD fid []) top_k (some author_id)

/-- Concrete snapshot for claim C2: authors 1 and 2 share one publication whose
`author_ids` list is `[1, 2]`; neither record carries a top-level
`combined['authors']` list (no in-repo producer writes one — see
`recsys_loader.py`, `example_usage.py` and the parser's `_combine_profiles`). -/
def dataC2 : AuthorsData :=
  [ (.pint 1, { name := some "A",
                publications := [{ title := some "T", year := some 2020,
                                   authors := [.pint 1, .pint 2] }] }),
    (.pint 2, { name := some "B",
                publications := [{ title := some "T", year := some 2020,
                                   authors := [.pint 1, .pint 2] }] }) ]

/-- Concrete snapshot for claim C7: the upstream `combined['authors']` list of
author 1 contains author 1 itself. -/
def dataC7 : AuthorsData :=
  [ (.pint 1, { name := some "A", authors := [.pint 1, .pint 2] }),
    (.pint 2, { name := some "B", authors := [.pint 1] }) ]

/-- Concrete snapshot for the claim C5 witness: author 1 has one publication
from 2020. -/
def dataC5 : AuthorsData :=
  [(.pint 1, { name := some "A",
               publications := [{ title := some "T", year := some 2020 }] })]

/-- Concrete snapshot for claim C3: two unconnected authors. -/
def dataC3 : AuthorsData :=
  [ (.pint 1, { name := some "A" }), (.pint 2, { name := some "B" }) ]

/-- Retrieved candidate for the claim C3 run. -/
def hitC3 : SearchHit := { id := .pint 2, score := 1/2, name := "B", interests := [] }

/-- Concrete snapshot for claim C4: one author with the integer id 7. -/
def dataC4 : AuthorsData :=
  [ (.pint 7, { name := some "Seven", interests := ["x"] }) ]

/-- Retrieved candidate for the claim C4 run. -/
def hitC4 : SearchHit := { id := .pint 7, score := 1/2, name := "Seven", interests := ["x"] }

/-- LLM response for claim C4: the model echoes the id as the string "007",
which resolves to the integer candidate 7 through the digit cast. -/
def respC4 : RerankResp :=
  .ok [{ id := some (.pstr "007"), rank := some 1, reasoning := some "fits" }]

/-- Concrete snapshot for claim C8. -/
def dataC8 : AuthorsData :=
  [ (.pint 1, { name := some "A" }), (.pint 2, { name := some "B" }) ]

/-- Retrieved candidate for the claim C8 run. -/
def hitC8 : SearchHit := { id := .pint 2, score := 1/2, name := "B", interests := [] }

/-- A well-formed LLM ranking entry for claim C8 that resolves exactly. -/
def itemC8 : RankItem := { id := some (.pint 2), rank := some 1, reasoning := some "r" }

/-- Concrete snapshot for claim C10. -/
def dataC10 : AuthorsData :=
  [ (.pint 1, { name := some "A" }), (.pint 2, { name := some "B" }),
    (.pint 3, { name := some "C" }) ]

/-- Retrieved candidates for the claim C10 run. -/
def hitsC10 : List SearchHit :=
  [ { id := .pint 2, score := 1/2, name := "B", interests := [] } ]

/-- LLM response for claim C10: its only entry names the unknown id 9, fails
all three resolution attempts and is silently dropped, with no backfill. -/
def respC10 : RerankResp :=
  .ok [ { id := some (.pint 9), rank := some 1, reasoning := some "r" } ]

/-- Stub embedding provider for claim C6: distinct unit vectors per chunk. -/
def encC6 : String → List ℚ := fun s => if s = "AI" then [1, 0] else [0, 1]

/-- Author record for claim C6: one interests chunk and one publication chunk. -/
def infoC6 : AuthorInfo :=
  { name := some "A", interests := ["AI"],
    publications := [{ title := some "Deep nets" }] }

/-- Stub embedding provider for claim C9. -/
def encC9 : String → List ℚ := fun _ => [1, 0]

/-- Snapshot for claim C9. -/
def dataC9 : AuthorsData := [ (.pint 1, { name := some "A", interests := ["a"] }) ]

/-- A built engine for claim C9. -/
def engC9 : Engine := process_and_index encC9 2 dataC9

/-- A returned entry is backed by a given forwarded heuristic candidate:
a heuristic entry is that candidate itself; an LLM-merged entry carries that
candidate name and heuristic details. -/
def entry_from_candidate (e : REntry) (h : HeurEntry) : Prop :=
  match e with
  | .heur h2 => h2 = h
  | .llm l => l.name = h.name ∧ l.heuristic_details = h.details

/-- Python `max` of a nonempty list returns one of its elements. -/
theorem listMaxInt_mem {l : List Int} {m : Int} (h : listMaxInt l = some m) : m ∈ l := by
  induction l generalizing m with
  | nil => simp [listMaxInt] at h
  | cons x xs ih =>
    simp only [listMaxInt] at h
    cases hx : listMaxInt xs with
    | none => rw [hx] at h; simp only [Option.some.injEq] at h; simp [h]
    | some m2 =>
      rw [hx] at h
      simp only [Option.some.injEq] at h
      rcases max_choice x m2 with hc | hc
      · rw [← h, hc]; exact List.mem_cons_self x xs
      · rw [← h, hc]; exact List.mem_cons_of_mem _ (ih hx)

/-- Every year kept by `_get_last_publication_year` was truthy, hence nonzero. -/
theorem pubYears_ne_zero {pubs : List Pub} {y : Int} (h : y ∈ pubYears pubs) : y ≠ 0 := by
  simp only [pubYears, List.mem_filterMap] at h
  obtain ⟨p, _, hp⟩ := h
  cases hy : p.year with
  | none => rw [hy] at hp; simp at hp
  | some z =>
    rw [hy] at hp
    by_cases hz : z = 0
    · simp [hz] at hp
    · simp only [if_neg hz, Option.some.injEq] at hp
      rw [← hp]; exact hz

/-- The last publication year the code computes is never the integer 0 (a zero
year is falsy in Python and is filtered out of the `years` list). -/
theorem last_pub_year_ne_zero {data : AuthorsData} {u : PyId} {y : Int}
    (h : get_last_publication_year data u = some y) : y ≠ 0 := by
  unfold get_last_publication_year at h
  exact pubYears_ne_zero (listMaxInt_mem h)

/-- Membership through one stable descending insertion. -/
theorem mem_insertDescBy {α : Type} (key : α → ℚ) (x a : α) (l : List α) :
    a ∈ insertDescBy key x l ↔ a = x ∨ a ∈ l := by
  induction l with
  | nil => simp [insertDescBy]
  | cons y ys ih =>
    simp only [insertDescBy]
    by_cases h : key y ≤ key x
    · simp [h]
    · rw [if_neg h]
      simp only [List.mem_cons, ih]
      tauto

/-- The stable descending sort is a permutation at the level of membership. -/
theorem mem_sortDescBy {α : Type} (key : α → ℚ) (a : α) (l : List α) :
    a ∈ sortDescBy key l ↔ a ∈ l := by
  induction l with
  | nil => simp [sortDescBy]
  | cons x xs ih =>
    simp only [sortDescBy, List.foldr] at ih ⊢
    rw [mem_insertDescBy]
    simp [ih]

/-- An entry of the heuristic stage comes from exactly one retrieved candidate
that survived the string-form self-exclusion. -/
theorem mem_heuristic_results {data : AuthorsData} {u : PyId}
    {cands : List SearchHit} {year : Int} {e : HeurEntry} :
    e ∈ heuristic_results data u cands year ↔
      ∃ c ∈ cands, pyStr c.id ≠ pyStr u ∧ e = score_candidate data u year c := by
  unfold heuristic_results
  rw [mem_sortDescBy]
  simp only [List.mem_filterMap]
  constructor
  · rintro ⟨c, hc, hfc⟩
    by_cases h : pyStr c.id = pyStr u
    · simp [h] at hfc
    · rw [if_neg h] at hfc
      simp only [Option.some.injEq] at hfc
      exact ⟨c, hc, h, hfc.symm⟩
  · rintro ⟨c, hc, h, he⟩
    exact ⟨c, hc, by rw [if_neg h, he]⟩

/-- Entries found in the candidate dict of `_rerank_with_gemini` are real
forwarded candidates. -/
theorem cand_map_get_mem {l : List HeurEntry} {k : PyId} {c : HeurEntry}
    (h : cand_map_get l k = some c) : c ∈ l := by
  unfold cand_map_get at h
  exact List.mem_reverse.mp (List.mem_of_find?_eq_some h)

/-- Whatever the three-way id resolution returns is a forwarded candidate. -/
theorem resolve_rank_item_mem {l : List HeurEntry} {item : RankItem} {c : HeurEntry}
    (h : resolve_rank_item l item = some c) : c ∈ l := by
  unfold resolve_rank_item at h
  dsimp only at h
  cases hex : (match item.id with | some k => cand_map_get l k | none => none) with
  | some c1 =>
    rw [hex] at h
    dsimp only at h
    cases h
    cases hid : item.id with
    | some k => rw [hid] at hex; exact cand_map_get_mem hex
    | none => rw [hid] at hex; cases hex
  | none =>
    rw [hex] at h
    dsimp only at h
    by_cases hd : pyIsDigit (pyStrOfOptId item.id)
    · rw [if_pos hd] at h
      cases hint : cand_map_get l (.pint (pyIntOfDigits (pyStrOfOptId item.id))) with
      | some c2 =>
        rw [hint] at h
        dsimp only at h
        cases h
        exact cand_map_get_mem hint
      | none =>
        rw [hint] at h
        dsimp only at h
        exact cand_map_get_mem h
    · rw [if_neg hd] at h
      dsimp only at h
      exact cand_map_get_mem h

/-- Invariant of the inner candidate loop of
`_init_second_degree_coauthors`: everything it adds differs from the user and
is outside the direct-contact set. -/
theorem mem_foldl_sd_add {u : PyId} {ds : Finset PyId} (l : List PyId)
    (acc : Finset PyId) (x : PyId) (h : x ∈ l.foldl (sd_add u ds) acc) :
    x ∈ acc ∨ (x ≠ u ∧ x ∉ ds) := by
  induction l generalizing acc with
  | nil => exact Or.inl h
  | cons c cs ih =>
    rcases ih (sd_add u ds acc c) h with h2 | h2
    · unfold sd_add at h2
      by_cases hc : c = u
      · rw [if_pos hc] at h2; exact Or.inl h2
      · rw [if_neg hc] at h2
        by_cases hd : c ∈ ds
        · rw [if_pos hd] at h2; exact Or.inl h2
        · rw [if_neg hd] at h2
          rcases Finset.mem_insert.mp h2 with h3 | h3
          · exact Or.inr ⟨h3 ▸ hc, h3 ▸ hd⟩
          · exact Or.inl h3
    · exact Or.inr h2

/-- Invariant of the outer intermediary loop of
`_init_second_degree_coauthors`. -/
theorem mem_foldl_sd_outer {data : AuthorsData} {u : PyId} {ds : Finset PyId}
    (l : List PyId) (acc : Finset PyId) (x : PyId)
    (h : x ∈ l.foldl (fun acc2 v => (coauthors_map_get data v).foldl (sd_add u ds) acc2) acc) :
    x ∈ acc ∨ (x ≠ u ∧ x ∉ ds) := by
  induction l generalizing acc with
  | nil => exact Or.inl h
  | cons v vs ih =>
    rcases ih _ h with h2 | h2
    · rcases mem_foldl_sd_add _ _ _ h2 with h3 | h3
      · exact Or.inl h3
      · exact Or.inr h3
    · exact Or.inr h2

/-- Any member of the computed second-degree set differs from the user and is
outside the user's direct coauthor list. -/
theorem mem_second_degree_get {data : AuthorsData} {u : PyId} {x : PyId}
    (h : x ∈ second_degree_get data u) :
    x ≠ u ∧ x ∉ (coauthors_map_get data u).toFinset := by
  unfold second_degree_get at h
  dsimp only at h
  rcases mem_foldl_sd_outer _ _ _ h with h2 | h2
  · cases h2
  · exact h2

/-- C7 counterexample: the claim states that for every snapshot and every
author id in it, `id ∉ direct[id]`. In the concrete snapshot `dataC7` the id
`1` is a snapshot key and the graph built by `_init_coauthors_map` contains
`1` in `direct[1]`, because the code copies `combined['authors']` verbatim and
that upstream list contains the author itself. -/
theorem c7_self_in_direct_counterexample :
    (dataC7.map (fun p => p.1)).contains (.pint 1) = true ∧
    PyId.pint 1 ∈ coauthors_map_get dataC7 (.pint 1) := by decide

/-- C7 (amended): of the three claimed invariants of the built graph, the two
about the second-degree set hold for every snapshot and id — `id` is never in
`second_degree[id]`, and `direct[id]` and `second_degree[id]` are disjoint —
but `id ∉ direct[id]` is not guaranteed, since `direct[id]` is the upstream
`combined['authors']` list taken verbatim (see the counterexample). -/
theorem c7_second_degree_invariants (data : AuthorsData) (u : PyId) :
    u ∉ second_degree_get data u ∧
    ∀ v ∈ coauthors_map_get data u, v ∉ second_degree_get data u := by
  constructor
  · intro h
    exact (mem_second_degree_get h).1 rfl
  · intro v hv hmem
    exact (mem_second_degree_get hmem).2 (List.mem_toFinset.mpr hv)

/-- C7 witness: the amended invariants applied to the concrete snapshot
`dataC7` at author 1 and its direct coauthor 2. -/
theorem c7_second_degree_invariants_witness :
    PyId.pint 1 ∉ second_degree_get dataC7 (.pint 1) ∧
    PyId.pint 2 ∉ second_degree_get dataC7 (.pint 1) :=
  ⟨(c7_second_degree_invariants dataC7 (.pint 1)).1,
   (c7_second_degree_invariants dataC7 (.pint 1)).2 (.pint 2) (by decide)⟩

/-- C5: composed with `_get_last_publication_year`, the recency multiplier of
`RecSys.recommend` is 1.0 for a `None` last year, and otherwise is a step
function of `d = current_year - last_year` taking 1.0 for `d ≤ 2`, 0.7 (inside
[0.7, 0.85]) for `3 ≤ d ≤ 5`, 0.4 (inside [0.4, 0.6]) for `6 ≤ d ≤ 10` and 0.2
(inside [0.2, 0.4]) for `d > 10`; moreover it is non-increasing in `d` for a
fixed last year. -/
theorem c5_time_decay_step_function (data : AuthorsData) (u : PyId) (year : Int) :
    (get_last_publication_year data u = none →
      time_coef (get_last_publication_year data u) year = 1) ∧
    (∀ y : Int, get_last_publication_year data u = some y →
      ((year - y ≤ 2 → time_coef (some y) year = 1) ∧
       (3 ≤ year - y → year - y ≤ 5 →
         (7/10 : ℚ) ≤ time_coef (some y) year ∧ time_coef (some y) year ≤ 85/100) ∧
       (6 ≤ year - y → year - y ≤ 10 →
         (2/5 : ℚ) ≤ time_coef (some y) year ∧ time_coef (some y) year ≤ 3/5) ∧
       (10 < year - y →
         (1/5 : ℚ) ≤ time_coef (some y) year ∧ time_coef (some y) year ≤ 2/5))) ∧
    (∀ c1 c2 : Int, c1 ≤ c2 →
      time_coef (get_last_publication_year data u) c2 ≤
        time_coef (get_last_publication_year data u) c1) := by
  refine ⟨?_, ?_, ?_⟩
  · intro h; rw [h]; rfl
  · intro y hy
    have hy0 : y ≠ 0 := last_pub_year_ne_zero hy
    simp only [time_coef, if_neg hy0]
    refine ⟨?_, ?_, ?_, ?_⟩ <;> intros <;> split_ifs <;>
      first
      | (exfalso; omega)
      | norm_num
  · intro c1 c2 hc
    cases hly : get_last_publication_year data u with
    | none => simp [time_coef]
    | some y =>
      simp only [time_coef]
      by_cases hy0 : y = 0
      · simp [hy0]
      · rw [if_neg hy0, if_neg hy0]
        split_ifs <;>
          first
          | (exfalso; omega)
          | norm_num

/-- C5 witness: for author 1 of `dataC5` (last publication year 2020) the
multiplier at 2024 (`d = 4`) lies in the moderately-stale band, and moving the
current year from 2024 to 2025 does not increase it. -/
theorem c5_time_decay_witness :
    ((7/10 : ℚ) ≤ time_coef (some 2020) 2024 ∧ time_coef (some 2020) 2024 ≤ 85/100) ∧
    time_coef (get_last_publication_year dataC5 (.pint 1)) 2025 ≤
      time_coef (get_last_publication_year dataC5 (.pint 1)) 2024 :=
  ⟨((c5_time_decay_step_function dataC5 (.pint 1) 2024).2.1 2020 (by decide)).2.1
      (by decide) (by decide),
   (c5_time_decay_step_function dataC5 (.pint 1) 2024).2.2 2024 2025 (by decide)⟩

/-- The heuristic entry of a candidate keeps the candidate's id. -/
theorem score_candidate_id (data : AuthorsData) (u : PyId) (year : Int)
    (c : SearchHit) : (score_candidate data u year c).id = c.id := rfl

/-- Every heuristic-stage entry has an id whose Python string form differs
from the requester's. -/
theorem hr_id_ne {data : AuthorsData} {u : PyId} {cands : List SearchHit}
    {year : Int} {h2 : HeurEntry}
    (hmem : h2 ∈ heuristic_results data u cands year) : pyStr h2.id ≠ pyStr u := by
  rcases mem_heuristic_results.mp hmem with ⟨c, _, hne, heq⟩
  rw [heq, score_candidate_id]
  exact hne

/-- Unfolding equation for `recommend` with the LLM stage enabled. -/
theorem recommend_true (data : AuthorsData) (u : PyId) (cands : List SearchHit)
    (year : Int) (top_n : Nat) (resp : RerankResp) :
    recommend data u cands year top_n true resp =
      rerank_with_gemini ((heuristic_results data u cands year).take 15) resp top_n := rfl

/-- Unfolding equation for `recommend` with the LLM stage disabled. -/
theorem recommend_false (data : AuthorsData) (u : PyId) (cands : List SearchHit)
    (year : Int) (top_n : Nat) (resp : RerankResp) :
    recommend data u cands year top_n false resp =
      ((heuristic_results data u cands year).take top_n).map .heur := rfl

/-- Unfolding equation for the reranker when the LLM call raised. -/
theorem rerank_fail (cands : List HeurEntry) (top_n : Nat) :
    rerank_with_gemini cands .fail top_n =
      if cands = [] then [] else (cands.take top_n).map .heur := by
  unfold rerank_with_gemini
  by_cases h : cands = [] <;> simp [h]

/-- Unfolding equation for the reranker when the LLM call succeeded. -/
theorem rerank_ok (cands : List HeurEntry) (ranking : List RankItem) (top_n : Nat) :
    rerank_with_gemini cands (.ok ranking) top_n =
      if cands = [] then []
      else (ranking.filterMap (fun item =>
        (resolve_rank_item cands item).map (fun c =>
          REntry.llm { id := item.id, name := c.name, llm_reasoning := item.reasoning,
                       heuristic_details := c.details }))).take top_n := by
  unfold rerank_with_gemini
  by_cases h : cands = [] <;> simp [h]

/-- The length of a filterMap is the count of inputs it keeps. -/
theorem length_filterMap_countP {α β : Type} (f : α → Option β) (l : List α) :
    (l.filterMap f).length = l.countP (fun a => (f a).isSome) := by
  induction l with
  | nil => rfl
  | cons x xs ih =>
    cases hx : f x with
    | none => simp [List.filterMap_cons, hx, List.countP_cons, ih]
    | some b => simp [List.filterMap_cons, hx, List.countP_cons, ih]

/-- With no forwarded candidates the three-way id resolution always misses. -/
theorem resolve_rank_item_nil (item : RankItem) : resolve_rank_item [] item = none := by
  cases hid : item.id <;> simp [resolve_rank_item, hid, cand_map_get]

/-- C2: the claim says `direct[u]` is the union of `u`'s publications'
`author_ids` minus `u`. Evaluating the code on the failing snapshot `dataC2`
(authors 1 and 2 share one publication with `author_ids = [1, 2]`):
`_init_coauthors_map` returns the empty list for author 1 because it reads the
(absent) top-level `combined['authors']` key, while the spec derivation gives
`{2}`. -/
theorem c2_direct_not_derived_from_publications :
    coauthors_map_get dataC2 (.pint 1) = [] ∧
    direct_spec dataC2 (.pint 1) = {PyId.pint 2} ∧
    PyId.pint 2 ∉ coauthors_map_get dataC2 (.pint 1) := by decide

/-- C3 counterexample: a candidate with no connection to the requester is
labelled "None" by the code, not "New connection" as the claim states; and the
stored `final_score` is the 4-decimal rounding of the formula, not the formula
value itself — for vector score 3/100000 the code stores 0 although
`(vector_score + social_bonus) * time_decay = 3/100000 ≠ 0`. -/
theorem c3_label_counterexample :
    ((heuristic_results dataC3 (.pint 1) [hitC3] 2024).map (fun e => e.details.connection)
      = ["None"] ∧ ("None" : String) ≠ "New connection") ∧
    ((score_candidate dataC3 (.pint 1) 2024
        { id := .pint 2, score := 3/100000, name := "B", interests := [] }).final_score = 0 ∧
      ((3/100000 : ℚ) + 0) * time_coef (get_last_publication_year dataC3 (.pint 2)) 2024 ≠ 0) := by
  refine ⟨by decide, ?_, ?_⟩
  · have hfs : (score_candidate dataC3 (.pint 1) 2024
        { id := .pint 2, score := 3/100000, name := "B", interests := [] }).final_score
        = pyRound4 ((3/100000 + 0) * 1) := rfl
    rw [hfs]
    have hfl : ⌊((3/100000 + 0) * 1 : ℚ) * 10000⌋ = 0 := by
      rw [Int.floor_eq_zero_iff, Set.mem_Ico]
      constructor <;> norm_num
    simp only [pyRound4]
    rw [hfl]
    norm_num
  · have ht : time_coef (get_last_publication_year dataC3 (.pint 2)) 2024 = 1 := rfl
    rw [ht]
    norm_num

/-- C3 (amended): every heuristic entry comes from a retrieved candidate and
stores `final_score = round((vector_score + social_bonus) * time_decay, 4)`
with social bonus 0.25 and label "Co-author" for a direct coauthor, 0.10 and
"2nd degree" for a second-degree one, and 0.0 with label "None" (not
"New connection") otherwise; `vector_score` is likewise stored rounded to 4
decimal places. -/
theorem c3_heuristic_score_formula (data : AuthorsData) (u : PyId)
    (cands : List SearchHit) (year : Int) (e : HeurEntry)
    (he : e ∈ heuristic_results data u cands year) :
    ∃ c ∈ cands,
      e.id = c.id ∧
      e.final_score =
        pyRound4 ((c.score +
          (if c.id ∈ coauthors_map_get data u then 1/4
           else if c.id ∈ second_degree_get data u then 1/10 else 0)) *
          time_coef (get_last_publication_year data c.id) year) ∧
      e.details.connection =
        (if c.id ∈ coauthors_map_get data u then "Co-author"
         else if c.id ∈ second_degree_get data u then "2nd degree" else "None") ∧
      e.details.vector_score = pyRound4 c.score ∧
      e.details.last_year = get_last_publication_year data c.id := by
  rcases mem_heuristic_results.mp he with ⟨c, hc, _, heq⟩
  refine ⟨c, hc, ?_⟩
  subst heq
  unfold score_candidate
  by_cases h1 : c.id ∈ coauthors_map_get data u
  · simp [h1]
  · by_cases h2 : c.id ∈ second_degree_get data u
    · simp [h1, h2]
    · simp [h1, h2]

/-- C3 witness: the amended scoring formula applied to the concrete run of
`dataC3` with requester 1 and retrieved candidate 2. -/
theorem c3_heuristic_score_formula_witness :
    ∃ c ∈ [hitC3],
      (score_candidate dataC3 (.pint 1) 2024 hitC3).id = c.id ∧
      (score_candidate dataC3 (.pint 1) 2024 hitC3).final_score =
        pyRound4 ((c.score +
          (if c.id ∈ coauthors_map_get dataC3 (.pint 1) then 1/4
           else if c.id ∈ second_degree_get dataC3 (.pint 1) then 1/10 else 0)) *
          time_coef (get_last_publication_year dataC3 c.id) 2024) ∧
      (score_candidate dataC3 (.pint 1) 2024 hitC3).details.connection =
        (if c.id ∈ coauthors_map_get dataC3 (.pint 1) then "Co-author"
         else if c.id ∈ second_degree_get dataC3 (.pint 1) then "2nd degree" else "None") ∧
      (score_candidate dataC3 (.pint 1) 2024 hitC3).details.vector_score = pyRound4 c.score ∧
      (score_candidate dataC3 (.pint 1) 2024 hitC3).details.last_year =
        get_last_publication_year dataC3 c.id :=
  c3_heuristic_score_formula dataC3 (.pint 1) [hitC3] 2024
    (score_candidate dataC3 (.pint 1) 2024 hitC3) (List.mem_singleton.mpr rfl)

/-- C1: when the LLM call fails in any way, `recommend` with `use_llm=True`
returns exactly the same list (same entries, ordering and length) as
`recommend` with `use_llm=False` on the same inputs, for any `top_n ≤ 15`;
the failure is absorbed (`rerank_with_gemini` is total) and the fallback is
the untouched heuristic top-`top_n`. -/
theorem c1_llm_failure_fallback (data : AuthorsData) (u : PyId)
    (cands : List SearchHit) (year : Int) (top_n : Nat) (h : top_n ≤ 15) :
    recommend data u cands year top_n true .fail =
      recommend data u cands year top_n false .fail := by
  rw [recommend_true, recommend_false, rerank_fail]
  by_cases he : (heuristic_results data u cands year).take 15 = []
  · rw [if_pos he]
    have h0 : heuristic_results data u cands year = [] := by
      cases hx : heuristic_results data u cands year with
      | nil => rfl
      | cons a l =>
        rw [hx] at he
        exact absurd he (by simp)
    rw [h0, List.take_nil]
    rfl
  · rw [if_neg he, List.take_take, Nat.min_eq_left h]

/-- C1 witness: the fallback equality at a concrete snapshot, requester,
candidate list and `top_n = 5`. -/
theorem c1_llm_failure_fallback_witness :
    5 ≤ 15 ∧
    recommend [(.pint 2, { name := some "B" })] (.pint 1)
        [{ id := .pint 2, score := 1/2, name := "B", interests := [] }] 2024 5 true .fail =
      recommend [(.pint 2, { name := some "B" })] (.pint 1)
        [{ id := .pint 2, score := 1/2, name := "B", interests := [] }] 2024 5 false .fail :=
  ⟨by norm_num,
   c1_llm_failure_fallback [(.pint 2, { name := some "B" })] (.pint 1)
     [{ id := .pint 2, score := 1/2, name := "B", interests := [] }] 2024 5 (by norm_num)⟩

/-- C4 counterexample: with requester id the string "007" and the snapshot
author with integer id 7, the heuristic stage keeps candidate 7 (string forms
"7" and "007" differ), and when the LLM echoes the id "007" the digit-cast
resolution matches candidate 7, so the returned entry's `id` field is exactly
the requester's own id "007". -/
theorem c4_requester_id_echoed_counterexample :
    (recommend dataC4 (.pstr "007") [hitC4] 2024 5 true respC4).any
      (fun e => entry_has_id e (.pstr "007")) = true := by decide

/-- C4 (amended): on every path — heuristic-only, LLM fallback and LLM
success — every returned entry is backed by a forwarded heuristic candidate
whose id differs from the requester's id in Python string form; in particular
the heuristic-only path never returns the requester itself. The literal `id`
field of an LLM-merged entry, however, echoes the LLM's value, which can
coincide with the requester's id when the two ids have different string forms
(see the counterexample). -/
theorem c4_entries_backed_by_non_requester (data : AuthorsData) (u : PyId)
    (cands : List SearchHit) (year : Int) (top_n : Nat) (use_llm : Bool)
    (resp : RerankResp) (e : REntry)
    (he : e ∈ recommend data u cands year top_n use_llm resp) :
    ∃ h2 ∈ heuristic_results data u cands year,
      pyStr h2.id ≠ pyStr u ∧ entry_from_candidate e h2 := by
  cases use_llm with
  | false =>
    rw [recommend_false] at he
    rcases List.mem_map.mp he with ⟨h2, hmem, rfl⟩
    have hm := List.mem_of_mem_take hmem
    exact ⟨h2, hm, hr_id_ne hm, rfl⟩
  | true =>
    rw [recommend_true] at he
    cases resp with
    | fail =>
      rw [rerank_fail] at he
      by_cases hemp : (heuristic_results data u cands year).take 15 = []
      · rw [if_pos hemp] at he; cases he
      · rw [if_neg hemp] at he
        rcases List.mem_map.mp he with ⟨h2, hmem, rfl⟩
        have hm := List.mem_of_mem_take (List.mem_of_mem_take hmem)
        exact ⟨h2, hm, hr_id_ne hm, rfl⟩
    | ok ranking =>
      rw [rerank_ok] at he
      by_cases hemp : (heuristic_results data u cands year).take 15 = []
      · rw [if_pos hemp] at he; cases he
      · rw [if_neg hemp] at he
        rcases List.mem_filterMap.mp (List.mem_of_mem_take he) with ⟨item, _, hres⟩
        rcases Option.map_eq_some'.mp hres with ⟨c, hcres, rfl⟩
        have hc := List.mem_of_mem_take (resolve_rank_item_mem hcres)
        exact ⟨c, hc, hr_id_ne hc, rfl, rfl⟩

/-- C4 witness: the amended statement at the concrete C4 run on the
heuristic-only path. -/
theorem c4_entries_backed_by_non_requester_witness :
    ∃ h2 ∈ heuristic_results dataC4 (.pstr "007") [hitC4] 2024,
      pyStr h2.id ≠ pyStr (.pstr "007") ∧
      entry_from_candidate (.heur (score_candidate dataC4 (.pstr "007") 2024 hitC4)) h2 :=
  c4_entries_backed_by_non_requester dataC4 (.pstr "007") [hitC4] 2024 5 false .fail
    (.heur (score_candidate dataC4 (.pstr "007") 2024 hitC4)) (List.mem_singleton.mpr rfl)

/-- C8 counterexample: on the same inputs, a successful LLM rerank returns
entries with keys id / name / llm_reasoning / heuristic_details, while the
degraded (fallback) result returns entries with keys id / name / final_score /
details — so the shapes differ by more than the absence of a reasoning field:
the full result drops `final_score` and renames the components key. -/
theorem c8_shape_counterexample :
    (recommend dataC8 (.pint 1) [hitC8] 2024 5 true (.ok [itemC8])).map entry_fields
      = [["id", "name", "llm_reasoning", "heuristic_details"]] ∧
    (recommend dataC8 (.pint 1) [hitC8] 2024 5 true .fail).map entry_fields
      = [["id", "name", "final_score", "details"]] ∧
    ("final_score" ∈ ["id", "name", "final_score", "details"]) ∧
    ("final_score" ∉ ["id", "name", "llm_reasoning", "heuristic_details"]) := by
  refine ⟨rfl, rfl, by decide, by decide⟩

/-- C8 (amended): the heuristic-only result and the LLM-fallback result are
dicts with keys id, name, final_score, details; a successful LLM rerank
instead returns dicts with keys id, name, llm_reasoning, heuristic_details —
degradation is therefore observable beyond the reasoning field (missing
`final_score`, renamed components key). -/
theorem c8_result_shapes (data : AuthorsData) (u : PyId) (cands : List SearchHit)
    (year : Int) (top_n : Nat) :
    (∀ resp : RerankResp, ∀ e ∈ recommend data u cands year top_n false resp,
      entry_fields e = ["id", "name", "final_score", "details"]) ∧
    (∀ e ∈ recommend data u cands year top_n true .fail,
      entry_fields e = ["id", "name", "final_score", "details"]) ∧
    (∀ ranking : List RankItem, ∀ e ∈ recommend data u cands year top_n true (.ok ranking),
      entry_fields e = ["id", "name", "llm_reasoning", "heuristic_details"]) := by
  refine ⟨?_, ?_, ?_⟩
  · intro resp e he
    rw [recommend_false] at he
    rcases List.mem_map.mp he with ⟨h2, _, rfl⟩
    rfl
  · intro e he
    rw [recommend_true, rerank_fail] at he
    by_cases hemp : (heuristic_results data u cands year).take 15 = []
    · rw [if_pos hemp] at he; cases he
    · rw [if_neg hemp] at he
      rcases List.mem_map.mp he with ⟨h2, _, rfl⟩
      rfl
  · intro ranking e he
    rw [recommend_true, rerank_ok] at he
    by_cases hemp : (heuristic_results data u cands year).take 15 = []
    · rw [if_pos hemp] at he; cases he
    · rw [if_neg hemp] at he
      rcases List.mem_filterMap.mp (List.mem_of_mem_take he) with ⟨item, _, hres⟩
      rcases Option.map_eq_some'.mp hres with ⟨c, _, rfl⟩
      rfl

/-- C8 witness: the two shapes at the concrete C8 runs. -/
theorem c8_result_shapes_witness :
    entry_fields (.heur (score_candidate dataC8 (.pint 1) 2024 hitC8))
      = ["id", "name", "final_score", "details"] ∧
    entry_fields (.llm { id := some (.pint 2), name := "B", llm_reasoning := some "r",
                         heuristic_details := (score_candidate dataC8 (.pint 1) 2024 hitC8).details })
      = ["id", "name", "llm_reasoning", "heuristic_details"] :=
  ⟨(c8_result_shapes dataC8 (.pint 1) [hitC8] 2024 5).1 .fail
      (.heur (score_candidate dataC8 (.pint 1) 2024 hitC8)) (List.mem_singleton.mpr rfl),
   (c8_result_shapes dataC8 (.pint 1) [hitC8] 2024 5).2.2 [itemC8]
      (.llm { id := some (.pint 2), name := "B", llm_reasoning := some "r",
              heuristic_details := (score_candidate dataC8 (.pint 1) 2024 hitC8).details })
      (List.mem_singleton.mpr rfl)⟩

/-- C10: with `use_llm=True` and a successful LLM call, the number of returned
entries equals the number of ranking entries that resolve (exact, digit-cast
or string-cast) to one of the forwarded top-15 heuristic candidates, capped at
`top_n`; omitted or unresolvable ids are not backfilled. In the concrete run
the LLM names only an unknown id, so the result is empty: strictly shorter
than `top_n = 2` and than the `use_llm=False` result of length 1. -/
theorem c10_llm_success_no_backfill :
    (∀ (data : AuthorsData) (u : PyId) (cands : List SearchHit) (year : Int)
        (top_n : Nat) (ranking : List RankItem),
      (recommend data u cands year top_n true (.ok ranking)).length =
        min top_n (ranking.countP (fun item =>
          (resolve_rank_item ((heuristic_results data u cands year).take 15) item).isSome))) ∧
    ((recommend dataC10 (.pint 1) hitsC10 2024 2 true respC10).length = 0 ∧
      (0 : Nat) < 2 ∧
      (recommend dataC10 (.pint 1) hitsC10 2024 2 false respC10).length = 1) := by
  constructor
  · intro data u cands year top_n ranking
    rw [recommend_true, rerank_ok]
    by_cases hemp : (heuristic_results data u cands year).take 15 = []
    · rw [if_pos hemp, hemp]
      simp [resolve_rank_item_nil]
    · rw [if_neg hemp, List.length_take, length_filterMap_countP]
      have hfun :
          (fun item => ((resolve_rank_item ((heuristic_results data u cands year).take 15) item).map
            (fun c => REntry.llm { id := item.id, name := c.name, llm_reasoning := item.reasoning,
                                   heuristic_details := c.details })).isSome)
          = (fun item =>
              (resolve_rank_item ((heuristic_results data u cands year).take 15) item).isSome) := by
        funext item
        cases resolve_rank_item ((heuristic_results data u cands year).take 15) item <;> rfl
      rw [hfun]
  · exact ⟨rfl, by norm_num, rfl⟩

/-- C6 counterexample: author `infoC6` has one interests chunk and one
publication chunk, embedded by the stub provider to the unit vectors [1,0] and
[0,1]. The code returns their plain mean [1/2, 1/2], whose squared norm is 1/2
— not the unit-length renormalized mean the claim describes (the mean is
nonzero, so the claimed renormalization would have squared norm 1). -/
theorem c6_mean_not_renormalized :
    get_single_author_vector encC6 2 infoC6 = [1/2, 1/2] ∧
    dotQ (get_single_author_vector encC6 2 infoC6)
        (get_single_author_vector encC6 2 infoC6) ≠ 1 ∧
    author_texts infoC6 ≠ [] ∧
    get_single_author_vector encC6 2 infoC6 ≠ List.replicate 2 0 := by
  have htext : author_texts infoC6 = ["AI", "Deep nets. "] := rfl
  have hv : get_single_author_vector encC6 2 infoC6 = [1/2, 1/2] := by
    have hne : ("Deep nets. " : String) ≠ "AI" := by decide
    unfold get_single_author_vector
    rw [htext]
    norm_num [meanVec, sumVecs, encC6, hne, List.zipWith, List.replicate]
    simp
  refine ⟨hv, ?_, ?_, ?_⟩
  · rw [hv]
    norm_num [dotQ]
  · rw [htext]
    simp
  · rw [hv]
    simp only [List.replicate]
    norm_num

/-- C6 (amended): the engine vectorizer `_get_single_author_vector` returns
the plain, unnormalized arithmetic mean of the chunk embeddings — scaled by
the number of chunks it equals their pointwise sum — where the chunk list is
the joined interests (when nonempty) plus one `"{title}. {abstract}"` chunk
per publication kept only when longer than 5 characters; an author with no
chunks gets the zero vector, without raising. (The separate script
`get_emb.py` renormalizes and double-weights the interests chunk instead.) -/
theorem c6_author_vector_plain_mean (encode : String → List ℚ) (d : Nat)
    (info : AuthorInfo) :
    (author_texts info = [] →
      get_single_author_vector encode d info = List.replicate d 0) ∧
    (author_texts info ≠ [] →
      (get_single_author_vector encode d info).map
          (fun x => ((author_texts info).length : ℚ) * x) =
        sumVecs d ((author_texts info).map encode)) := by
  constructor
  · intro h
    unfold get_single_author_vector
    rw [if_pos h]
  · intro h
    have hn : (((author_texts info).length : ℚ)) ≠ 0 := by
      rw [Nat.cast_ne_zero]
      intro h0
      exact h (List.length_eq_zero.mp h0)
    unfold get_single_author_vector
    rw [if_neg h]
    unfold meanVec
    rw [List.map_map, List.length_map]
    have hcomp : ((fun x => ((author_texts info).length : ℚ) * x) ∘
        (fun x => x / ((author_texts info).length : ℚ))) = id := by
      funext x
      simp only [Function.comp_apply, id_eq]
      field_simp
    rw [hcomp, List.map_id]

/-- C6 witness: the zero-vector case for an author with no interests and no
publications, and the scaled-mean identity at the concrete author `infoC6`. -/
theorem c6_author_vector_plain_mean_witness :
    get_single_author_vector encC6 2 {} = List.replicate 2 0 ∧
    (get_single_author_vector encC6 2 infoC6).map
        (fun x => ((author_texts infoC6).length : ℚ) * x) =
      sumVecs 2 ((author_texts infoC6).map encC6) :=
  ⟨(c6_author_vector_plain_mean encC6 2 {}).1 rfl,
   (c6_author_vector_plain_mean encC6 2 infoC6).2 (by simp [author_texts, infoC6])⟩

/-- C9 counterexample: an unknown author id makes `search_similar_to_author`
raise `ValueError` (the code has no `NotFoundError`), and searching before any
`process_and_index` call fails with `AttributeError` on the `None` index (the
code has no `NotReadyError`). -/
theorem c9_error_types_counterexample :
    search_similar_to_author engC9 (.pint 99) 5 = .error .valueError ∧
    PyErr.valueError ≠ PyErr.notFoundError ∧
    search_by_text (fresh_engine 2) [1, 0] 5 = .error .attributeError ∧
    PyErr.attributeError ≠ PyErr.notReadyError :=
  ⟨rfl, by decide, rfl, by decide⟩

/-- C9 (amended): an author id absent from the id map makes
`search_similar_to_author` raise `ValueError` whatever the engine state; on a
fresh (never indexed) engine a text/vector search raises `AttributeError`
(`self.index` is `None`), and an author-similarity search raises `ValueError`
(the id map is empty). -/
theorem c9_search_error_behavior (eng : Engine) (aid : PyId) (k d : Nat)
    (q : List ℚ) (h : assocGet eng.reverse_id_map aid = none) :
    search_similar_to_author eng aid k = .error .valueError ∧
    search_by_text (fresh_engine d) q k = .error .attributeError ∧
    search_similar_to_author (fresh_engine d) aid k = .error .valueError := by
  refine ⟨?_, rfl, rfl⟩
  unfold search_similar_to_author
  rw [h]

/-- C9 witness: the amended error behavior at the concrete engine `engC9`,
the unknown id 99 and a fresh engine of dimension 3. -/
theorem c9_search_error_behavior_witness :
    search_similar_to_author engC9 (.pint 99) 6 = .error .valueError ∧
    search_by_text (fresh_engine 3) [1] 6 = .error .attributeError ∧
    search_similar_to_author (fresh_engine 3) (.pint 99) 6 = .error .valueError :=
  c9_search_error_behavior engC9 (.pint 99) 6 3 [1] rfl
